import Mathlib

/-!
Verification of the highlander repository: a distributed single-instance
supervisor.  The development embeds the two lock implementations of the
repository (lock.py, with an atomic Lua refresh script, and the variant
inside the package init module, with a plain get followed by a plain set),
the subprocess wrapper, and the supervisor main loop, and proves the
claimed properties about them.
-/

namespace Highlander

/-- An entry stored under the lock key: the value written by some instance
and the absolute time at which the store expires the key. -/
structure Entry where
  value : String
  expireAt : Nat
deriving DecidableEq

/-- The coordination store restricted to the single lock key the program
uses (every store operation in the source addresses one fixed lock
identifier). -/
structure Store where
  entry : Option Entry
deriving DecidableEq

/-- The store with no value under the lock key. -/
def Store.empty : Store := ⟨none⟩

/-- Redis GET of the lock key at time now: the stored value, or none once
the key has expired or was never set. -/
def Store.getVal (s : Store) (now : Nat) : Option String :=
  match s.entry with
  | some e => if now < e.expireAt then some e.value else none
  | none => none

/-- Redis SET of the lock key with an NX flag and an EX ttl, at time now.
Returns whether the set was performed, together with the resulting store;
with NX the set is refused while the key is present and not yet expired. -/
def Store.setEx (s : Store) (now : Nat) (v : String) (nx : Bool) (ttl : Nat) :
    Bool × Store :=
  if nx then
    match s.getVal now with
    | some _ => (false, s)
    | none => (true, ⟨some ⟨v, now + ttl⟩⟩)
  else (true, ⟨some ⟨v, now + ttl⟩⟩)

/-- The body of RedisLock.lua_refresh in lock.py, executed atomically by the
store as one operation: if GET of the key equals the given identity then
EXPIRE the key to ttl seconds from now and return the EXPIRE result (1,
because the key is present at that same instant), else return 0. -/
def Store.evalRefresh (s : Store) (now : Nat) (ident : String) (ttl : Nat) :
    Bool × Store :=
  match s.entry with
  | some e =>
    if now < e.expireAt then
      if e.value = ident then (true, ⟨some ⟨e.value, now + ttl⟩⟩)
      else (false, s)
    else (false, s)
  | none => (false, s)

/-- The LockException raised by both lock modules; carries the message. -/
structure LockException where
  msg : String
deriving DecidableEq

namespace LockPy

/-- The RedisLock of lock.py: lock key name, configured lease duration in
seconds, and the process identity string written under the key. -/
structure RedisLock where
  lock_identifier : String
  lock_time : Nat
  process_identifer : String
deriving DecidableEq

/-- The expiry lock.py acquire passes to SET, read off the source
expression: lock_time when strictly above 5, else lock_time times 5. -/
def effectiveLease (lock_time : Nat) : Nat :=
  if lock_time > 5 then lock_time else lock_time * 5

/-- RedisLock.acquire of lock.py: one SET NX EX call with the effective
lease; returns the boolean outcome, raising nothing on contention. -/
def RedisLock.acquire (l : RedisLock) (s : Store) (now : Nat) : Bool × Store :=
  s.setEx now l.process_identifer true (effectiveLease l.lock_time)

/-- RedisLock.refresh of lock.py: a single eval of lua_refresh passing the
raw configured lock_time; raises LockException when the script returns 0. -/
def RedisLock.refresh (l : RedisLock) (s : Store) (now : Nat) :
    Except LockException Store :=
  let r := s.evalRefresh now l.process_identifer l.lock_time
  if r.1 then Except.ok r.2 else Except.error ⟨"Could not refresh lock"⟩

end LockPy

namespace InitPy

/-- The RedisLock defined in the package init module. -/
structure RedisLock where
  lock_identifier : String
  lock_time : Nat
  process_identifer : String
deriving DecidableEq

/-- The expiry acquire_lock passes to SET, read off the source: lock_time
times 5 when strictly below 5, else lock_time unchanged. -/
def effectiveLease (lock_time : Nat) : Nat :=
  if lock_time < 5 then lock_time * 5 else lock_time

/-- RedisLock.acquire_lock of the init module: one SET NX EX call with the
effective lease. -/
def RedisLock.acquire_lock (l : RedisLock) (s : Store) (now : Nat) :
    Bool × Store :=
  s.setEx now l.process_identifer true (effectiveLease l.lock_time)

/-- The first store round trip of refresh_lock: a plain GET compared with
the process identity. -/
def RedisLock.refresh_check (l : RedisLock) (s : Store) (now : Nat) : Bool :=
  decide (s.getVal now = some l.process_identifer)

/-- The second store round trip of refresh_lock: a plain SET (no NX flag)
with the raw configured lock_time. -/
def RedisLock.refresh_set (l : RedisLock) (s : Store) (now : Nat) :
    Bool × Store :=
  s.setEx now l.process_identifer false l.lock_time

/-- RedisLock.refresh_lock of the init module: the plain GET comparison,
raising on mismatch, then the separate plain SET, raising when the SET
reports failure.  Two distinct store operations, not one. -/
def RedisLock.refresh_lock (l : RedisLock) (s : Store) (now : Nat) :
    Except LockException Store :=
  if l.refresh_check s now then
    let r := l.refresh_set s now
    if r.1 then Except.ok r.2 else Except.error ⟨"Could not refresh lock"⟩
  else Except.error ⟨"Lost the lock"⟩

end InitPy

/-- Behavior of the operating system child process when left alone: the
step at which it terminates by itself and its exit code. -/
structure ChildBehavior where
  exitTime : Nat
  code : Int
deriving DecidableEq

/-- A subprocess Popen handle: the cached returncode kept by poll. -/
structure Popen where
  returncode : Option Int
deriving DecidableEq

/-- Popen.poll: non blocking; before the child terminates it yields none;
once the child has terminated it reaps the exit code, caches it, and every
later call returns the cached code. -/
def Popen.poll (child : ChildBehavior) (p : Popen) (now : Nat) :
    Option Int × Popen :=
  match p.returncode with
  | some c => (some c, p)
  | none =>
    if child.exitTime ≤ now then (some child.code, ⟨some child.code⟩)
    else (none, p)

/-- The SIGTERM signal number sent by Popen.terminate. -/
def SIGTERM : Int := 15

/-- State of the Process wrapper: the Popen handle and the list of signals
the wrapper has sent to the child so far. -/
structure ProcState where
  popen : Popen
  signalsSent : List Int
deriving DecidableEq

/-- Process.return_code: returns self.process.poll(). -/
def Process.return_code (child : ChildBehavior) (ps : ProcState) (now : Nat) :
    Option Int × ProcState :=
  let r := Popen.poll child ps.popen now
  (r.1, ⟨r.2, ps.signalsSent⟩)

/-- Process.stop: the whole source body is self.process.terminate(), which
sends SIGTERM and returns at once; no wait on the child is performed, the
exit status is not collected, and, the Python method having no return
statement, the returned value is None. -/
def Process.stop (ps : ProcState) : Option Int × ProcState :=
  (none, ⟨ps.popen, ps.signalsSent ++ [SIGTERM]⟩)

/-- Observable events of Highlander.run in chronological order. -/
inductive Event
  | acquireAttempt (ok : Bool)
  | spawn
  | poll (r : Option Int)
  | refresh (ok : Bool)
  | sleep
  | stop
deriving DecidableEq

/-- Outcome of a fuel bounded run of Highlander.run: a returned value of
proc.return_code(), a LockException propagating out of the method, or fuel
exhaustion of the model. -/
inductive RunOutcome
  | returned (code : Option Int)
  | raised
  | outOfFuel
deriving DecidableEq

/-- The first loop of Highlander.run, read off the source: while not
acquire_lock(): self.sleep().  The oracle acquireOk gives the result of the
k-th acquire attempt; fuel bounds the number of modelled attempts. -/
def acquiringLoop (acquireOk : Nat → Bool) : Nat → Nat → List Event × Bool
  | _, 0 => ([], false)
  | k, fuel+1 =>
    if acquireOk k then ([Event.acquireAttempt true], true)
    else
      let rest := acquiringLoop acquireOk (k+1) fuel
      (Event.acquireAttempt false :: Event.sleep :: rest.1, rest.2)

/-- The second loop of Highlander.run, read off the source:
while proc.return_code() is None: self._lock_manager.refresh_lock();
self.sleep(), followed by return proc.return_code().  The oracle pollR gives
the result of the i-th return_code() call and refreshOk whether the j-th
refresh_lock() call returns normally; a raising refresh propagates at once,
the source installing no handler around it.  Note the order inside the loop
body: the refresh comes directly after the exit check and before the sleep,
and the loop exit path issues one extra return_code() call for the return
statement. -/
def runningLoop (pollR : Nat → Option Int) (refreshOk : Nat → Bool) :
    Nat → Nat → Nat → List Event × RunOutcome
  | _, _, 0 => ([], RunOutcome.outOfFuel)
  | i, j, fuel+1 =>
    match pollR i with
    | some c =>
      ([Event.poll (some c), Event.poll (pollR (i+1))],
        RunOutcome.returned (pollR (i+1)))
    | none =>
      if refreshOk j then
        let rest := runningLoop pollR refreshOk (i+1) (j+1) fuel
        (Event.poll none :: Event.refresh true :: Event.sleep :: rest.1,
          rest.2)
      else
        ([Event.poll none, Event.refresh false], RunOutcome.raised)

/-- Highlander.run: the acquiring loop, then the Process(cmd) spawn, then
the running loop; the value of the running loop is the value of run. -/
def run (acquireOk : Nat → Bool) (pollR : Nat → Option Int)
    (refreshOk : Nat → Bool) (fuelA fuelR : Nat) : List Event × RunOutcome :=
  let a := acquiringLoop acquireOk 0 fuelA
  if a.2 then
    let r := runningLoop pollR refreshOk 0 0 fuelR
    (a.1 ++ Event.spawn :: r.1, r.2)
  else (a.1, RunOutcome.outOfFuel)

/-- The main function ends with sys.exit(highlander.run()): the program
exit status mirrors the outcome of run. -/
def main_result (acquireOk : Nat → Bool) (pollR : Nat → Option Int)
    (refreshOk : Nat → Bool) (fuelA fuelR : Nat) : RunOutcome :=
  (run acquireOk pollR refreshOk fuelA fuelR).2

/-- Run a sequence of acquire calls, each a lock object paired with its call
time, in order against the store, collecting the boolean results. -/
def acquireSeq : List (LockPy.RedisLock × Nat) → Store → List Bool × Store
  | [], s => ([], s)
  | (l, t) :: rest, s =>
    let r := l.acquire s t
    let rr := acquireSeq rest r.2
    (r.1 :: rr.1, rr.2)

/-- Every call of the sequence happens while any lease present at that
moment is still outstanding: the call time lies strictly before the current
expiry whenever the key holds an entry. -/
def duringLease : Store → List (LockPy.RedisLock × Nat) → Bool
  | _, [] => true
  | s, (l, t) :: rest =>
    (match s.entry with
     | some e => decide (t < e.expireAt)
     | none => true) && duringLease (l.acquire s t).2 rest

/-- Shapes of the running loop traces: zero or more iterations of the block
(exit check observing none, refresh returning normally, sleep), closed by a
natural exit (two poll events and no refresh in that final iteration), by a
raising refresh (directly after the exit check, before any sleep of that
iteration), or by fuel exhaustion. -/
inductive RunningTrace : List Event → Prop
  | exited (c : Int) (r : Option Int) :
      RunningTrace [Event.poll (some c), Event.poll r]
  | lost : RunningTrace [Event.poll none, Event.refresh false]
  | fuelOut : RunningTrace []
  | step (tr : List Event) : RunningTrace tr →
      RunningTrace (Event.poll none :: Event.refresh true :: Event.sleep :: tr)

/-- Helper of refreshAfterSleep; the flag records whether a sleep event has
already occurred earlier in the trace. -/
def refreshAfterSleepGo : Bool → List Event → Bool
  | _, [] => true
  | _, Event.sleep :: tr => refreshAfterSleepGo true tr
  | seenSleep, Event.refresh _ :: tr =>
    seenSleep && refreshAfterSleepGo seenSleep tr
  | seenSleep, _ :: tr => refreshAfterSleepGo seenSleep tr

/-- The ordering the claim asserts, formalized from the spec words: every
refresh event of the trace is preceded by an earlier sleep event. -/
def refreshAfterSleep (tr : List Event) : Bool :=
  refreshAfterSleepGo false tr

/-- Modelled from the claim words, for comparison with the source
expressions: effective lease equals LeaseDuration times 5 when LeaseDuration
is strictly below 5 seconds, and LeaseDuration unchanged otherwise. -/
def claimEffectiveLease (lock_time : Nat) : Nat :=
  if lock_time < 5 then lock_time * 5 else lock_time

/-! Helper lemmas shared by the claim theorems. -/

/-- When the lua script reports success, the key now holds the given
identity with expiry ttl from now. -/
theorem evalRefresh_true (s : Store) (now : Nat) (ident : String) (ttl : Nat)
    (h : (s.evalRefresh now ident ttl).1 = true) :
    (s.evalRefresh now ident ttl).2 = ⟨some ⟨ident, now + ttl⟩⟩ := by
  unfold Store.evalRefresh at h ⊢
  cases hse : s.entry with
  | none =>
    rw [hse] at h
    simp at h
  | some e =>
    rw [hse] at h
    by_cases hlt : now < e.expireAt
    · by_cases hv : e.value = ident
      · simp [hlt, hv]
      · simp [hlt, hv] at h
    · simp [hlt] at h

/-- A refresh of lock.py that returns normally has set the key to the
process identity of the caller with expiry lock_time from now. -/
theorem refresh_ok_entry (l : LockPy.RedisLock) (s s2 : Store) (now : Nat)
    (hok : l.refresh s now = Except.ok s2) :
    s2.entry = some ⟨l.process_identifer, now + l.lock_time⟩ := by
  have hok2 : (if (s.evalRefresh now l.process_identifer l.lock_time).1 = true
      then Except.ok (s.evalRefresh now l.process_identifer l.lock_time).2
      else Except.error (⟨"Could not refresh lock"⟩ : LockException)) =
      Except.ok s2 := hok
  cases htrue : (s.evalRefresh now l.process_identifer l.lock_time).1 with
  | false =>
    rw [htrue] at hok2
    simp at hok2
  | true =>
    rw [htrue, if_pos rfl] at hok2
    obtain rfl : (s.evalRefresh now l.process_identifer l.lock_time).2 = s2 :=
      by injection hok2
    rw [evalRefresh_true s now l.process_identifer l.lock_time htrue]

/-- While the key holds an unexpired entry, every SET NX acquire of lock.py
fails and leaves the store unchanged. -/
theorem acquire_false_of_entry (m : LockPy.RedisLock) (s : Store) (e : Entry)
    (t : Nat) (hs : s.entry = some e) (ht : t < e.expireAt) :
    m.acquire s t = (false, s) := by
  simp [LockPy.RedisLock.acquire, Store.setEx, Store.getVal, hs, ht]

/-- Popen.poll keeps returning the exit code it observed once, and the
handle state no longer changes. -/
theorem popen_poll_idempotent (child : ChildBehavior) (p p1 : Popen)
    (t1 t2 : Nat) (c : Int)
    (h1 : Popen.poll child p t1 = (some c, p1)) :
    Popen.poll child p1 t2 = (some c, p1) := by
  unfold Popen.poll at h1 ⊢
  cases hrc : p.returncode with
  | some c0 =>
    rw [hrc] at h1
    have hc : some c0 = some c := congrArg Prod.fst h1
    have hp : p = p1 := congrArg Prod.snd h1
    obtain rfl := hp
    injection hc with hc
    subst hc
    rw [hrc]
  | none =>
    rw [hrc] at h1
    by_cases hex : child.exitTime ≤ t1
    · rw [if_pos hex] at h1
      have hc : some child.code = some c := congrArg Prod.fst h1
      have hp : (⟨some child.code⟩ : Popen) = p1 := congrArg Prod.snd h1
      obtain rfl := hp
      injection hc with hc
    · rw [if_neg hex] at h1
      have := congrArg Prod.fst h1
      simp at this

/-- The acquiring loop never emits a stop event. -/
theorem stop_not_mem_acquiringLoop (acquireOk : Nat → Bool) :
    ∀ fuel k, Event.stop ∉ (acquiringLoop acquireOk k fuel).1 := by
  intro fuel
  induction fuel with
  | zero => intro k; simp [acquiringLoop]
  | succ fuel ih =>
    intro k
    cases h : acquireOk k with
    | true => simp [acquiringLoop, h]
    | false =>
      simp [acquiringLoop, h]
      exact ih (k+1)

/-- The running loop never emits a stop event. -/
theorem stop_not_mem_runningLoop (pollR : Nat → Option Int)
    (refreshOk : Nat → Bool) :
    ∀ fuel i j, Event.stop ∉ (runningLoop pollR refreshOk i j fuel).1 := by
  intro fuel
  induction fuel with
  | zero => intro i j; simp [runningLoop]
  | succ fuel ih =>
    intro i j
    cases hp : pollR i with
    | some c => simp [runningLoop, hp]
    | none =>
      cases hr : refreshOk j with
      | true =>
        simp [runningLoop, hp, hr]
        exact ih (i+1) (j+1)
      | false => simp [runningLoop, hp, hr]

/-- Highlander.run never emits a stop event: Process.stop is dead code of
the source, called from nowhere. -/
theorem stop_not_mem_run (acquireOk : Nat → Bool) (pollR : Nat → Option Int)
    (refreshOk : Nat → Bool) (fuelA fuelR : Nat) :
    Event.stop ∉ (run acquireOk pollR refreshOk fuelA fuelR).1 := by
  unfold run
  cases ha : (acquiringLoop acquireOk 0 fuelA).2 with
  | false =>
    simp [ha]
    exact stop_not_mem_acquiringLoop acquireOk fuelA 0
  | true =>
    simp [ha, List.mem_append]
    exact ⟨stop_not_mem_acquiringLoop acquireOk fuelA 0,
      stop_not_mem_runningLoop pollR refreshOk fuelR 0 0⟩

/-- With a child that exits at poll number n with code c and refreshes that
all return normally, the running loop returns some c, given enough fuel. -/
theorem runningLoop_natural_exit (pollR : Nat → Option Int)
    (refreshOk : Nat → Bool) (n : Nat) (c : Int)
    (hp : ∀ k, pollR k = if n ≤ k then some c else none)
    (hr : ∀ j, refreshOk j = true) :
    ∀ fuel i j, n ≤ i + fuel →
      (runningLoop pollR refreshOk i j (fuel+1)).2 =
        RunOutcome.returned (some c) := by
  intro fuel
  induction fuel with
  | zero =>
    intro i j hi
    have hpi : pollR i = some c := by rw [hp i, if_pos (by omega)]
    have hpi1 : pollR (i+1) = some c := by rw [hp (i+1), if_pos (by omega)]
    simp [runningLoop, hpi, hpi1]
  | succ fuel ih =>
    intro i j hi
    by_cases hni : n ≤ i
    · have hpi : pollR i = some c := by rw [hp i, if_pos hni]
      have hpi1 : pollR (i+1) = some c := by rw [hp (i+1), if_pos (by omega)]
      simp [runningLoop, hpi, hpi1]
    · have hpi : pollR i = none := by rw [hp i, if_neg hni]
      have hrj := hr j
      simp [runningLoop, hpi, hrj]
      exact ih (i+1) (j+1) (by omega)

/-- While the key holds an unexpired entry, a sequence of acquire calls all
made during the lease yields no true result at all. -/
theorem acquireSeq_held_count_zero (calls : List (LockPy.RedisLock × Nat))
    (s : Store) (e : Entry) (hs : s.entry = some e)
    (hd : duringLease s calls = true) :
    ((acquireSeq calls s).1.count true) = 0 := by
  induction calls generalizing s e with
  | nil => simp [acquireSeq]
  | cons hd0 tl ih =>
    obtain ⟨l, t⟩ := hd0
    rw [duringLease, hs] at hd
    simp only [Bool.and_eq_true, decide_eq_true_eq] at hd
    obtain ⟨ht, hrest⟩ := hd
    have hacq := acquire_false_of_entry l s e t hs ht
    rw [hacq] at hrest
    simp [acquireSeq, hacq]
    exact ih s e hs hrest

/-- A SET NX acquire of lock.py that returns true has created the entry
holding the callers identity with the effective lease as ttl. -/
theorem acquire_true_entry (l : LockPy.RedisLock) (s s1 : Store) (now : Nat)
    (hacq : l.acquire s now = (true, s1)) :
    s1.entry = some ⟨l.process_identifer,
      now + LockPy.effectiveLease l.lock_time⟩ := by
  unfold LockPy.RedisLock.acquire Store.setEx at hacq
  cases hg : s.getVal now with
  | some v =>
    rw [hg] at hacq
    simp at hacq
  | none =>
    rw [hg] at hacq
    simp at hacq
    subst hacq
    rfl

/-! Claim theorems. -/

/-- Claim C1: the claim states that when refresh raises LockLost while the
child is still running, run invokes stop and returns the post signal exit
code.  The source has no handler: evaluating run at the failing input
(acquire succeeds at once, the child never exits, the first refresh raises)
shows the exception propagating as the outcome of run, with no stop call
ever issued; Process.stop is dead code of the repository. -/
theorem C1_run_propagates_lock_exception :
    run (fun _ => true) (fun _ => none) (fun _ => false) 1 5 =
      ([Event.acquireAttempt true, Event.spawn, Event.poll none,
        Event.refresh false], RunOutcome.raised) ∧
    Event.stop ∉
      (run (fun _ => true) (fun _ => none) (fun _ => false) 1 5).1 :=
  ⟨rfl, by decide⟩

/-- Claim C2: for every sequence of acquire calls against the lock key made
while a lease on the key is outstanding, at most one call returns true; the
others return false, and acquire is a total boolean function, raising
nothing on contention. -/
theorem C2_acquire_mutual_exclusion (calls : List (LockPy.RedisLock × Nat))
    (s : Store) (hd : duringLease s calls = true) :
    ((acquireSeq calls s).1.count true) ≤ 1 := by
  cases calls with
  | nil => simp [acquireSeq]
  | cons hd0 tl =>
    obtain ⟨l, t⟩ := hd0
    cases hse : s.entry with
    | some e =>
      have h0 := acquireSeq_held_count_zero ((l, t) :: tl) s e hse hd
      omega
    | none =>
      have hacq : l.acquire s t =
          (true, ⟨some ⟨l.process_identifer,
            t + LockPy.effectiveLease l.lock_time⟩⟩) := by
        simp [LockPy.RedisLock.acquire, Store.setEx, Store.getVal, hse]
      rw [duringLease, hse] at hd
      simp only [Bool.and_eq_true] at hd
      have hrest : duringLease (l.acquire s t).2 tl = true := hd.2
      rw [hacq] at hrest
      have h0 := acquireSeq_held_count_zero tl
        ⟨some ⟨l.process_identifer, t + LockPy.effectiveLease l.lock_time⟩⟩
        ⟨l.process_identifer, t + LockPy.effectiveLease l.lock_time⟩ rfl hrest
      simp [acquireSeq, hacq, List.count_cons, h0]

/-- Witness for C2: three distinct identities race for the key during the
lease created by the first call; exactly the first acquire returns true. -/
theorem C2_witness :
    duringLease Store.empty
      [(⟨"k", 5, "hostA:1"⟩, 0), (⟨"k", 5, "hostB:2"⟩, 1),
       (⟨"k", 5, "hostC:3"⟩, 2)] = true ∧
    (acquireSeq [(⟨"k", 5, "hostA:1"⟩, 0), (⟨"k", 5, "hostB:2"⟩, 1),
       (⟨"k", 5, "hostC:3"⟩, 2)] Store.empty).1 = [true, false, false] ∧
    ((acquireSeq [(⟨"k", 5, "hostA:1"⟩, 0), (⟨"k", 5, "hostB:2"⟩, 1),
       (⟨"k", 5, "hostC:3"⟩, 2)] Store.empty).1.count true) ≤ 1 :=
  ⟨by decide, by decide,
    C2_acquire_mutual_exclusion
      [(⟨"k", 5, "hostA:1"⟩, 0), (⟨"k", 5, "hostB:2"⟩, 1),
       (⟨"k", 5, "hostC:3"⟩, 2)] Store.empty (by decide)⟩

/-- Counterexample for C3: refresh_lock of the init module, the refresh the
program entry point actually uses, is a plain GET followed by a plain SET,
two separate store operations.  Concretely: instance A acquires at time 0
(lease 15), the GET check of its refresh at time 14 passes, the lease then
expires and a second instance B acquires successfully at time 15, after
which the SET half of the refresh of A at time 16 still succeeds and
overwrites the key of B — an acquire by a second instance interleaved
between the check and the extension, which the claim says cannot occur. -/
theorem C3_counterexample :
    InitPy.RedisLock.acquire_lock ⟨"k", 3, "hostA:1"⟩ Store.empty 0 =
      (true, ⟨some ⟨"hostA:1", 15⟩⟩) ∧
    InitPy.RedisLock.refresh_check ⟨"k", 3, "hostA:1"⟩
      ⟨some ⟨"hostA:1", 15⟩⟩ 14 = true ∧
    (InitPy.RedisLock.acquire_lock ⟨"k", 3, "hostB:2"⟩
      ⟨some ⟨"hostA:1", 15⟩⟩ 15).1 = true ∧
    InitPy.RedisLock.refresh_set ⟨"k", 3, "hostA:1"⟩
      ⟨some ⟨"hostB:2", 30⟩⟩ 16 = (true, ⟨some ⟨"hostA:1", 19⟩⟩) := by
  decide

/-- Claim C3 (amended): the refresh of lock.py is one single atomic store
operation, the eval of lua_refresh, so no acquire by a second instance can
occur between its check and its extension: after a successful refresh at
time now, any acquire before the new expiry now + lock_time finds the key
held and fails.  The refresh_lock of the init module does not have this
shape (see the counterexample). -/
theorem C3_refresh_atomic_no_window (l m : LockPy.RedisLock) (s s2 : Store)
    (now t2 : Nat) (hok : l.refresh s now = Except.ok s2)
    (h1 : now ≤ t2) (h2 : t2 < now + l.lock_time) :
    l.refresh s now =
      (if (s.evalRefresh now l.process_identifer l.lock_time).1 = true then
        Except.ok (s.evalRefresh now l.process_identifer l.lock_time).2
      else Except.error ⟨"Could not refresh lock"⟩) ∧
    (m.acquire s2 t2).1 = false := by
  refine ⟨rfl, ?_⟩
  have hent := refresh_ok_entry l s s2 now hok
  rw [acquire_false_of_entry m s2 ⟨l.process_identifer, now + l.lock_time⟩
    t2 hent h2]

/-- Witness for C3: instance a refreshes at time 2 (lease 7, expiry 9); the
acquire of instance b at time 8 fails. -/
theorem C3_witness :
    LockPy.RedisLock.refresh ⟨"k", 7, "a"⟩ ⟨some ⟨"a", 5⟩⟩ 2 =
      (if ((⟨some ⟨"a", 5⟩⟩ : Store).evalRefresh 2 "a" 7).1 = true then
        Except.ok ((⟨some ⟨"a", 5⟩⟩ : Store).evalRefresh 2 "a" 7).2
      else Except.error ⟨"Could not refresh lock"⟩) ∧
    (LockPy.RedisLock.acquire ⟨"k", 7, "b"⟩ ⟨some ⟨"a", 9⟩⟩ 8).1 = false :=
  C3_refresh_atomic_no_window ⟨"k", 7, "a"⟩ ⟨"k", 7, "b"⟩ ⟨some ⟨"a", 5⟩⟩
    ⟨some ⟨"a", 9⟩⟩ 2 8 rfl (by decide) (by decide)

/-- Claim C4: the refresh of lock.py raises exactly when the stored value
under the key is not the process identity of this instance (including the
expired and absent cases); the disjunct about the atomic extend reporting
no effect is vacuous, the extend being in the same atomic script as the
successful check.  A refresh by the rightful holder before expiry never
raises and extends the lease to lock_time from now. -/
theorem C4_refresh_raises_iff_not_holder (l : LockPy.RedisLock) (s : Store)
    (now : Nat) :
    (l.refresh s now = Except.error ⟨"Could not refresh lock"⟩ ↔
      s.getVal now ≠ some l.process_identifer) ∧
    (s.getVal now = some l.process_identifer →
      l.refresh s now =
        Except.ok ⟨some ⟨l.process_identifer, now + l.lock_time⟩⟩) := by
  unfold LockPy.RedisLock.refresh Store.evalRefresh Store.getVal
  cases hse : s.entry with
  | none => simp
  | some e =>
    by_cases hlt : now < e.expireAt
    · by_cases hv : e.value = l.process_identifer
      · simp [hlt, hv]
      · simp [hlt, hv]
    · simp [hlt]

/-- Witness for C4: a holder refresh extends and returns normally; a
refresh finding another identity raises. -/
theorem C4_witness :
    LockPy.RedisLock.refresh ⟨"k", 6, "a"⟩ ⟨some ⟨"a", 10⟩⟩ 4 =
      Except.ok ⟨some ⟨"a", 10⟩⟩ ∧
    LockPy.RedisLock.refresh ⟨"k", 6, "a"⟩ ⟨some ⟨"b", 10⟩⟩ 4 =
      Except.error ⟨"Could not refresh lock"⟩ :=
  ⟨(C4_refresh_raises_iff_not_holder ⟨"k", 6, "a"⟩ ⟨some ⟨"a", 10⟩⟩ 4).2
      (by decide),
   (C4_refresh_raises_iff_not_holder ⟨"k", 6, "a"⟩ ⟨some ⟨"b", 10⟩⟩ 4).1.mpr
      (by decide)⟩

/-- Counterexample for C5: the claim formula leaves a configured lease of
exactly 5 unchanged, but the acquire of lock.py scales it (its guard is
strictly greater than 5, not greater or equal), passing 25 to SET. -/
theorem C5_counterexample :
    LockPy.effectiveLease 5 = 25 ∧ claimEffectiveLease 5 = 5 ∧
    LockPy.effectiveLease 5 ≠ claimEffectiveLease 5 ∧
    LockPy.RedisLock.acquire ⟨"k", 5, "a"⟩ Store.empty 0 =
      (true, ⟨some ⟨"a", 25⟩⟩) := by
  refine ⟨rfl, rfl, by decide, rfl⟩

/-- Claim C5 (amended): the acquire of lock.py applies lease times 5 when
the configured value is at most 5 (so exactly 5 becomes 25) and the value
unchanged above 5, while acquire_lock of the init module scales only
strictly below 5 and leaves exactly 5 unchanged; both pass exactly this
effective lease to their SET NX call. -/
theorem C5_effective_lease_scaling (L : Nat) (l : LockPy.RedisLock)
    (li : InitPy.RedisLock) (s si : Store) (now ni : Nat) :
    LockPy.effectiveLease L = (if L ≤ 5 then L * 5 else L) ∧
    InitPy.effectiveLease L = (if L < 5 then L * 5 else L) ∧
    l.acquire s now = s.setEx now l.process_identifer true
      (LockPy.effectiveLease l.lock_time) ∧
    li.acquire_lock si ni = si.setEx ni li.process_identifer true
      (InitPy.effectiveLease li.lock_time) := by
  refine ⟨?_, rfl, rfl, rfl⟩
  unfold LockPy.effectiveLease
  split_ifs <;> omega

/-- Counterexample for C6: the claim asserts every refresh happens after a
sleep; in the source the loop body is refresh then sleep, so on a run where
the child exits after one heartbeat the first refresh event is preceded by
no sleep event at all. -/
theorem C6_counterexample :
    (run (fun _ => true) (fun k => if 1 ≤ k then some 7 else none)
        (fun _ => true) 1 2).1 =
      [Event.acquireAttempt true, Event.spawn, Event.poll none,
       Event.refresh true, Event.sleep, Event.poll (some 7),
       Event.poll (some 7)] ∧
    refreshAfterSleep
      ((run (fun _ => true) (fun k => if 1 ≤ k then some 7 else none)
        (fun _ => true) 1 2).1) = false :=
  ⟨rfl, rfl⟩

/-- Claim C6 (amended): while running, the repeating cycle is: check the
process exit status (exiting the loop with that code if it exited), then
call refresh, then sleep one heartbeat interval; every refresh happens
directly after an exit check and before the sleep of its iteration, and a
natural exit is detected at the check without any refresh in that final
iteration. -/
theorem C6_running_cycle (pollR : Nat → Option Int) (refreshOk : Nat → Bool)
    (fuel i j : Nat) :
    RunningTrace (runningLoop pollR refreshOk i j fuel).1 := by
  induction fuel generalizing i j with
  | zero => exact RunningTrace.fuelOut
  | succ fuel ih =>
    cases hp : pollR i with
    | some c =>
      simp only [runningLoop, hp]
      exact RunningTrace.exited c (pollR (i+1))
    | none =>
      cases hr : refreshOk j with
      | true =>
        simp only [runningLoop, hp, hr, if_true]
        exact RunningTrace.step _ (ih (i+1) (j+1))
      | false =>
        simp only [runningLoop, hp, hr]
        simp only [Bool.false_eq_true, if_false]
        exact RunningTrace.lost

/-- Counterexample for C7: stop on a live child returns no exit code at all
(the Python method body is a bare terminate call with no return statement
and no wait), and the exit status of the child remains uncollected. -/
theorem C7_counterexample :
    (Process.stop ⟨⟨none⟩, []⟩).1 = none ∧
    (Process.stop ⟨⟨none⟩, []⟩).2.popen.returncode = none :=
  ⟨rfl, rfl⟩

/-- Claim C7 (amended): stop sends the graceful termination signal SIGTERM
to the child and returns immediately: it does not block until the child has
exited, leaves the Popen handle untouched, and returns no exit code. -/
theorem C7_stop_sends_sigterm_only (ps : ProcState) :
    Process.stop ps = (none, ⟨ps.popen, ps.signalsSent ++ [SIGTERM]⟩) := rfl

/-- Claim C8: when the managed command exits on its own with code c before
any lock loss, run returns c, the program exit status mirrors it, and no
stop call is ever issued during the run. -/
theorem C8_natural_exit (acquireOk : Nat → Bool) (pollR : Nat → Option Int)
    (refreshOk : Nat → Bool) (n : Nat) (c : Int) (fuelA fuelR : Nat)
    (hp : ∀ k, pollR k = if n ≤ k then some c else none)
    (hr : ∀ j, refreshOk j = true)
    (ha : (acquiringLoop acquireOk 0 fuelA).2 = true)
    (hf : n < fuelR) :
    (run acquireOk pollR refreshOk fuelA fuelR).2 =
      RunOutcome.returned (some c) ∧
    main_result acquireOk pollR refreshOk fuelA fuelR =
      RunOutcome.returned (some c) ∧
    Event.stop ∉ (run acquireOk pollR refreshOk fuelA fuelR).1 := by
  have hrun : (run acquireOk pollR refreshOk fuelA fuelR).2 =
      RunOutcome.returned (some c) := by
    unfold run
    simp only [ha, if_true]
    obtain ⟨m, rfl⟩ : ∃ m, fuelR = m + 1 := ⟨fuelR - 1, by omega⟩
    exact runningLoop_natural_exit pollR refreshOk n c hp hr m 0 0 (by omega)
  exact ⟨hrun, hrun, stop_not_mem_run acquireOk pollR refreshOk fuelA fuelR⟩

/-- Witness for C8: the child exits with code 7 at the second poll; the run
returns 7 and no stop event appears in the trace. -/
theorem C8_witness :
    (run (fun _ => true) (fun k => if 1 ≤ k then some 7 else none)
        (fun _ => true) 1 2).2 = RunOutcome.returned (some 7) ∧
    main_result (fun _ => true) (fun k => if 1 ≤ k then some 7 else none)
        (fun _ => true) 1 2 = RunOutcome.returned (some 7) ∧
    Event.stop ∉ (run (fun _ => true)
        (fun k => if 1 ≤ k then some 7 else none) (fun _ => true) 1 2).1 :=
  C8_natural_exit (fun _ => true) (fun k => if 1 ≤ k then some 7 else none)
    (fun _ => true) 1 7 1 2 (fun _ => rfl) (fun _ => rfl) rfl (by decide)

/-- Claim C9: once a return_code call has observed the exit code of the
child, every later return_code call returns the same exit code and the same
wrapper state. -/
theorem C9_return_code_idempotent (child : ChildBehavior) (ps ps1 : ProcState)
    (t1 t2 : Nat) (c : Int) (h12 : t1 ≤ t2)
    (h1 : Process.return_code child ps t1 = (some c, ps1)) :
    Process.return_code child ps1 t2 = (some c, ps1) := by
  unfold Process.return_code at h1 ⊢
  have hfst : (Popen.poll child ps.popen t1).1 = some c := congrArg Prod.fst h1
  have hsnd : (⟨(Popen.poll child ps.popen t1).2, ps.signalsSent⟩ : ProcState)
      = ps1 := congrArg Prod.snd h1
  have hpoll : Popen.poll child ps.popen t1 =
      (some c, (Popen.poll child ps.popen t1).2) := Prod.ext hfst rfl
  have h2 := popen_poll_idempotent child ps.popen
    (Popen.poll child ps.popen t1).2 t1 t2 c hpoll
  obtain rfl := hsnd
  simp only []
  rw [h2]

/-- Witness for C9: the child exits at time 3 with code 7; a poll at time 3
observes it and a later poll at time 10 returns the same code and state. -/
theorem C9_witness :
    Process.return_code ⟨3, 7⟩ ⟨⟨some 7⟩, []⟩ 10 = (some 7, ⟨⟨some 7⟩, []⟩) :=
  C9_return_code_idempotent ⟨3, 7⟩ ⟨⟨none⟩, []⟩ ⟨⟨some 7⟩, []⟩ 3 10 7
    (by decide) rfl

/-- Claim C10: acquire applies the scaled lease lock_time times 5 for a
configured lease below the floor, while refresh always extends with the raw
lock_time; hence the first successful refresh (any refresh before
now + 4 times lock_time, which the heartbeat cadence guarantees) moves the
expiry strictly below the one acquire had set: the remaining lease shrinks
from the scaled value to the raw configured value. -/
theorem C10_refresh_extends_raw_lease (l : LockPy.RedisLock) (s s1 s2 : Store)
    (now t : Nat) (h0 : 0 < l.lock_time) (h5 : l.lock_time < 5)
    (hacq : l.acquire s now = (true, s1))
    (href : l.refresh s1 t = Except.ok s2)
    (ht : t < now + 4 * l.lock_time) :
    s1.entry = some ⟨l.process_identifer, now + l.lock_time * 5⟩ ∧
    s2.entry = some ⟨l.process_identifer, t + l.lock_time⟩ ∧
    t + l.lock_time < now + l.lock_time * 5 := by
  have heff : LockPy.effectiveLease l.lock_time = l.lock_time * 5 := by
    unfold LockPy.effectiveLease
    rw [if_neg]
    omega
  have hs1 := acquire_true_entry l s s1 now hacq
  rw [heff] at hs1
  exact ⟨hs1, refresh_ok_entry l s1 s2 t href, by omega⟩

/-- Witness for C10: configured lease 2, acquire at time 0 sets expiry 10,
the refresh at time 3 resets it to 5, strictly earlier than 10. -/
theorem C10_witness :
    (⟨some ⟨"a", 10⟩⟩ : Store).entry = some ⟨"a", 0 + 2 * 5⟩ ∧
    (⟨some ⟨"a", 5⟩⟩ : Store).entry = some ⟨"a", 3 + 2⟩ ∧
    3 + 2 < 0 + 2 * 5 :=
  C10_refresh_extends_raw_lease ⟨"k", 2, "a"⟩ Store.empty ⟨some ⟨"a", 10⟩⟩
    ⟨some ⟨"a", 5⟩⟩ 0 3 (by decide) (by decide) rfl rfl (by decide)

end Highlander
